import Mathlib

/-!
Verification of the raw-audio transcoding and resilient-fetch utility layer
of the `linguanana/nova` demos: base64 decoding (`base64ToArrayBuffer`),
PCM-to-WAV packaging (`pcmToWav`), the exponential-backoff fetch wrapper
(`exponentialBackoffFetch`, modelled here as `execute`), and SRT subtitle
generation (`generateSrt`).

Byte buffers are modelled as `List Nat` with entries below 256; machine
integer writes (`DataView.setUint32` / `setUint16` / `setUint8`) are modelled
with explicit `% 2 ^ 32`, `% 2 ^ 16`, `% 2 ^ 8` reductions, matching the
JavaScript `ToUint32` / `ToUint16` / `ToUint8` coercions.
-/

/-- Little-endian bytes of a 16-bit write: `DataView.setUint16(_, n, true)`
coerces `n` modulo `2 ^ 16` and stores the two bytes low-first. -/
def u16le (n : Nat) : List Nat :=
  [n % 65536 % 256, n % 65536 / 256]

/-- Little-endian bytes of a 32-bit write: `DataView.setUint32(_, n, true)`
coerces `n` modulo `2 ^ 32` and stores the four bytes low-first. -/
def u32le (n : Nat) : List Nat :=
  [n % 4294967296 % 256, n % 4294967296 / 256 % 256,
   n % 4294967296 / 65536 % 256, n % 4294967296 / 16777216 % 256]

/-- Byte codes of an ASCII tag, as written by the source helper
`writeString(view, offset, string)` via `charCodeAt`. -/
def asciiBytes (s : String) : List Nat :=
  s.data.map Char.toNat

/-- Reading a little-endian 16-bit integer at a byte offset (out-of-range
bytes read as 0). -/
def readU16le (bs : List Nat) (off : Nat) : Nat :=
  bs.getD off 0 + 256 * bs.getD (off + 1) 0

/-- Reading a little-endian 32-bit integer at a byte offset (out-of-range
bytes read as 0). -/
def readU32le (bs : List Nat) (off : Nat) : Nat :=
  bs.getD off 0 + 256 * bs.getD (off + 1) 0 +
    65536 * bs.getD (off + 2) 0 + 16777216 * bs.getD (off + 3) 0

/-- Embedding of `pcmToWav(pcmData, sampleRate)` from `src/App.jsx`
(lines 39-81): a 44-byte RIFF/WAVE header followed by the sample bytes.
The writes are laid out in source order at consecutive offsets
(0 "RIFF", 4 riff size, 8 "WAVE", 12 "fmt ", 16 fmt length, 20 format tag,
22 channels, 24 sample rate, 28 byte rate, 32 block align, 34 bits per
sample, 36 "data", 40 data length, 44 sample bytes).  `setUint8` coerces
each sample byte modulo 256. -/
def pcmToWav (pcmData : List Nat) (sampleRate : Nat) : List Nat :=
  asciiBytes "RIFF" ++ u32le (36 + pcmData.length) ++ asciiBytes "WAVE" ++
  asciiBytes "fmt " ++ u32le 16 ++ u16le 1 ++ u16le 1 ++ u32le sampleRate ++
  u32le (sampleRate * 2) ++ u16le 2 ++ u16le 16 ++
  asciiBytes "data" ++ u32le pcmData.length ++ pcmData.map (fun b => b % 256)

/-- Little-endian bytes of `DataView.setInt16(_, v, true)`: the value is
coerced modulo `2 ^ 16` (two's complement) and stored low byte first. -/
def int16le (v : Int) : List Nat :=
  [((v % 65536).toNat) % 256, ((v % 65536).toNat) / 256]

/-- Embedding of `pcmToWav(pcm16, sampleRate)` from `src/App.js`
(lines 25-56): identical header, but the input is a sequence of signed
16-bit samples written little-endian; `dataLength = pcm16.length * 2`. -/
def pcmToWavInt16 (pcm16 : List Int) (sampleRate : Nat) : List Nat :=
  asciiBytes "RIFF" ++ u32le (36 + pcm16.length * 2) ++ asciiBytes "WAVE" ++
  asciiBytes "fmt " ++ u32le 16 ++ u16le 1 ++ u16le 1 ++ u32le sampleRate ++
  u32le (sampleRate * 2) ++ u16le 2 ++ u16le 16 ++
  asciiBytes "data" ++ u32le (pcm16.length * 2) ++ (pcm16.map int16le).flatten

/-- Modelled from the spec: a standard WAV parser (the spec's round-trip
property appeals to "a standard WAV reader", which is not part of the
repository).  It validates the RIFF/WAVE markers, the `fmt ` sub-chunk
(declared length 16, PCM format tag 1, mono, 16 bits per sample), the
`data` marker, the declared sizes against the actual buffer length, and
returns the data bytes together with the declared sample rate. -/
def parseWav (bs : List Nat) : Option (List Nat × Nat) :=
  let dataLen := readU32le bs 40
  if bs.take 4 = asciiBytes "RIFF" ∧
     readU32le bs 4 = bs.length - 8 ∧
     (bs.drop 8).take 4 = asciiBytes "WAVE" ∧
     (bs.drop 12).take 4 = asciiBytes "fmt " ∧
     readU32le bs 16 = 16 ∧
     readU16le bs 20 = 1 ∧
     readU16le bs 22 = 1 ∧
     readU16le bs 34 = 16 ∧
     (bs.drop 36).take 4 = asciiBytes "data" ∧
     bs.length = 44 + dataLen then
    some (bs.drop 44, readU32le bs 24)
  else
    none

/-- Value of a character in the standard base64 alphabet
(`A`-`Z` 0-25, `a`-`z` 26-51, `0`-`9` 52-61, `+` 62, `/` 63), or `none`
for a character outside the alphabet. -/
def b64Index (c : Char) : Option Nat :=
  if 65 ≤ c.toNat ∧ c.toNat ≤ 90 then some (c.toNat - 65)
  else if 97 ≤ c.toNat ∧ c.toNat ≤ 122 then some (c.toNat - 71)
  else if 48 ≤ c.toNat ∧ c.toNat ≤ 57 then some (c.toNat + 4)
  else if c = '+' then some 62
  else if c = '/' then some 63
  else none

/-- Character of a sextet value in the standard base64 alphabet. -/
def b64Char (n : Nat) : Char :=
  if n < 26 then Char.ofNat (65 + n)
  else if n < 52 then Char.ofNat (71 + n)
  else if n < 62 then Char.ofNat (n - 4)
  else if n = 62 then '+'
  else '/'

/-- ASCII whitespace stripped by `atob` (forgiving-base64): tab, line feed,
form feed, carriage return, space. -/
def b64Ws (c : Char) : Bool :=
  c = '\t' || c = '\n' || c = '\x0c' || c = '\r' || c = ' '

/-- Padding removal of forgiving-base64: when the character count is a
multiple of 4, up to two trailing `=` characters are removed. -/
def stripPad (cs : List Char) : List Char :=
  if cs.length % 4 = 0 then
    if cs.getLast? = some '=' then
      if cs.dropLast.getLast? = some '=' then cs.dropLast.dropLast
      else cs.dropLast
    else cs
  else cs

/-- Decoding a list of sextet values to bytes, four sextets to three bytes,
with a final group of two or three sextets yielding one or two bytes
(leftover bits discarded) and a final group of one sextet invalid. -/
def b64DecodeSextets : List Nat → Option (List Nat)
  | [] => some []
  | a :: b :: c :: d :: rest =>
    (b64DecodeSextets rest).map
      (fun r => (a * 4 + b / 16) :: ((b % 16) * 16 + c / 4) ::
                ((c % 4) * 64 + d) :: r)
  | [a, b] => some [a * 4 + b / 16]
  | [a, b, c] => some [a * 4 + b / 16, (b % 16) * 16 + c / 4]
  | [_] => none

/-- Model of the platform `atob` builtin (WHATWG forgiving-base64 decode)
used by `base64ToArrayBuffer`: strip ASCII whitespace, remove padding,
reject a remainder of one character or any character outside the alphabet,
and decode sextet groups to bytes.  The binary string `atob` returns is
represented directly by its character codes, which are the bytes. -/
def atob (s : String) : Option (List Nat) :=
  let cs := stripPad (s.data.filter (fun c => !b64Ws c))
  if cs.length % 4 = 1 then none
  else (cs.mapM b64Index).bind b64DecodeSextets

/-- Embedding of `base64ToArrayBuffer(base64)` (src/App.jsx lines 28-36,
src/App.js lines 15-23): decode with `atob`, then read the character code
of every position of the resulting binary string into a byte array. -/
def base64ToArrayBuffer (s : String) : Option (List Nat) :=
  atob s

/-- Sextet values of the standard base64 encoding of a byte list, without
padding characters: three bytes to four sextets, a final single byte to
two sextets and a final pair of bytes to three sextets (padding bits
zero). -/
def b64EncSextets : List Nat → List Nat
  | [] => []
  | b1 :: b2 :: b3 :: rest =>
    b1 / 4 :: ((b1 % 4) * 16 + b2 / 16) :: ((b2 % 16) * 4 + b3 / 64) ::
      (b3 % 64) :: b64EncSextets rest
  | [b1] => [b1 / 4, (b1 % 4) * 16]
  | [b1, b2] => [b1 / 4, (b1 % 4) * 16 + b2 / 16, (b2 % 16) * 4]

/-- Padding characters of the standard base64 encoding of `n` bytes. -/
def b64Pad (n : Nat) : List Char :=
  if n % 3 = 1 then ['=', '=']
  else if n % 3 = 2 then ['=']
  else []

/-- Standard base64 encoder (the reference inverse for the round-trip
property: `base64ToArrayBuffer` must recover exactly the bytes that were
encoded). -/
def b64encode (bs : List Nat) : String :=
  String.mk ((b64EncSextets bs).map b64Char ++ b64Pad bs.length)

/-- HTTP response as seen by `exponentialBackoffFetch`: its `status` and
`statusText` (the only fields the source reads). -/
structure Response where
  status : Nat
  statusText : String
deriving DecidableEq, Repr

/-- JavaScript `Response.ok`: true exactly when the status is in 200-299. -/
def Response.okStatus (r : Response) : Bool :=
  200 ≤ r.status && r.status < 300

/-- Values thrown inside `exponentialBackoffFetch`: either the transport
itself rejected (`connError`, e.g. a connection failure thrown by `fetch`),
or the source's own
`throw new Error(\x7bAPI error: $(response.statusText)\x7d)`
for a non-ok response, modelled as `apiError` carrying the status text. -/
inductive JsError where
  | connError (msg : String)
  | apiError (statusText : String)
deriving DecidableEq, Repr

/-- Observable behaviour of one `exponentialBackoffFetch(url, options,
retries, delay)` call: the `fetch(url, options)` calls made in order, the
backoff delays awaited in order, and the final outcome — `some (.ok r)`
when the promise resolves with response `r`, `some (.error e)` when it
rejects with `e`, and `none` when the loop falls through and the function
resolves with `undefined`. -/
structure ExecResult where
  reqs : List (String × String)
  waits : List Nat
  outcome : Option (Except JsError Response)
deriving Repr

/-- One mock transport: attempt index and the `fetch` arguments to either a
response (`.ok`) or a thrown transport error (`.error`). -/
def Transport : Type :=
  Nat → String → String → Except JsError Response

/-- Embedding of the `for (let i = 0; i < retries; i++)` loop body of
`exponentialBackoffFetch` (src/App.jsx lines 92-109), indexed by the
current attempt `i` and the number `rem` of iterations still allowed after
the current one (`rem = retries - i - 1`; the source's guard `i < retries`
is the `rem + 1` pattern, its `i < retries - 1` is `0 < rem`, and its
`i === retries - 1` is `rem = 0`).  On a 429 response that is not the last
allowed attempt, the source waits `delay * 2 ^ i` and continues; on an ok
response it returns; otherwise it throws its own `API error`, which —
like a transport error — is caught by the `catch` block and either
re-thrown (last attempt) or retried after the same backoff wait. -/
def execLoop (t : Transport) (url opts : String) (delay : Nat) :
    Nat → Nat → ExecResult
  | _, 0 => ⟨[], [], none⟩
  | i, rem + 1 =>
    match t i url opts with
    | .ok resp =>
      if resp.status = 429 ∧ 0 < rem then
        let r := execLoop t url opts delay (i + 1) rem
        ⟨(url, opts) :: r.reqs, delay * 2 ^ i :: r.waits, r.outcome⟩
      else if resp.okStatus then ⟨[(url, opts)], [], some (.ok resp)⟩
      else if rem = 0 then
        ⟨[(url, opts)], [], some (.error (.apiError resp.statusText))⟩
      else
        let r := execLoop t url opts delay (i + 1) rem
        ⟨(url, opts) :: r.reqs, delay * 2 ^ i :: r.waits, r.outcome⟩
    | .error e =>
      if rem = 0 then ⟨[(url, opts)], [], some (.error e)⟩
      else
        let r := execLoop t url opts delay (i + 1) rem
        ⟨(url, opts) :: r.reqs, delay * 2 ^ i :: r.waits, r.outcome⟩

/-- Embedding of `exponentialBackoffFetch(url, options, retries, delay)`
(src/App.jsx lines 91-110): run the attempt loop from attempt 0 with
`retries` iterations allowed. -/
def execute (t : Transport) (url opts : String) (retries delay : Nat) :
    ExecResult :=
  execLoop t url opts delay 0 retries

/-- Mock transport that always returns HTTP 500. -/
def mock500 : Transport :=
  fun _ _ _ => .ok ⟨500, "Internal Server Error"⟩

/-- Mock transport returning HTTP 429 on the first two attempts and
HTTP 200 afterwards. -/
def mock429Then200 : Transport :=
  fun i _ _ => if i < 2 then .ok ⟨429, "Too Many Requests"⟩
               else .ok ⟨200, "OK"⟩

/-- Sentence-terminator characters of the splitting regular expression
`[^.!?\n\r]+[.!?\n\r]*` in `generateSrt` (src/App.js line 566). -/
def isTermChar (c : Char) : Bool :=
  c = '.' || c = '!' || c = '?' || c = '\n' || c = '\r'

/-- Fuel-indexed worker for the global regular-expression match: at a
terminator character no match can start, so the scanner advances one
character; otherwise a match greedily takes the maximal run of
non-terminators and then the maximal run of terminators after it.  Each
step consumes at least one character, so fuel equal to the input length is
sufficient. -/
def matchChunksGo : Nat → List Char → List (List Char)
  | 0, _ => []
  | _ + 1, [] => []
  | fuel + 1, c :: cs =>
    if isTermChar c then matchChunksGo fuel cs
    else
      ((c :: cs).takeWhile (fun x => !isTermChar x) ++
        ((c :: cs).dropWhile (fun x => !isTermChar x)).takeWhile isTermChar) ::
      matchChunksGo fuel
        (((c :: cs).dropWhile (fun x => !isTermChar x)).dropWhile isTermChar)

/-- Global matching of `[^.!?\n\r]+[.!?\n\r]*` over the text, as in
`text.match(...)` of `generateSrt`. -/
def matchChunks (s : List Char) : List (List Char) :=
  matchChunksGo s.length s

/-- Sentence list of `generateSrt`:
`text.match(...) || [text]` — when the regular expression produces no
match (`null`), the whole text is the single sentence. -/
def sentencesOf (text : String) : List (List Char) :=
  if matchChunks text.data = [] then [text.data] else matchChunks text.data

/-- JavaScript whitespace removed by `String.prototype.trim` (ASCII
portion: tab, line feed, vertical tab, form feed, carriage return,
space). -/
def jsWsChar (c : Char) : Bool :=
  c = '\t' || c = '\n' || c = '\x0b' || c = '\x0c' || c = '\r' || c = ' '

/-- Model of `sentence.trim()`: whitespace removed from both ends. -/
def jsTrim (cs : List Char) : List Char :=
  ((cs.dropWhile jsWsChar).reverse.dropWhile jsWsChar).reverse

/-- Model of `toString().padStart(n, '0')`: prepend zeros up to width `n`. -/
def padZeros (n : Nat) (s : String) : String :=
  String.mk (List.replicate (n - s.length) '0') ++ s

/-- Embedding of `formatTime(ms)` inside `generateSrt` (src/App.js lines
576-582): hours, minutes, seconds zero-padded to two digits and
milliseconds to three, as `HH:MM:SS,mmm`. -/
def formatTime (ms : Nat) : String :=
  padZeros 2 (toString (ms / 3600000)) ++ ":" ++
  padZeros 2 (toString (ms % 3600000 / 60000)) ++ ":" ++
  padZeros 2 (toString (ms % 60000 / 1000)) ++ "," ++
  padZeros 3 (toString (ms % 1000))

/-- One appended cue of `generateSrt` (src/App.js lines 584-586):
`index`, newline, `start --> end`, newline, trimmed sentence, blank
line. -/
def srtCue (idx startMs endMs : Nat) (txt : String) : String :=
  toString idx ++ "\n" ++ formatTime startMs ++ " --> " ++
    formatTime endMs ++ "\n" ++ txt ++ "\n\n"

/-- Body of the `sentences.forEach` loop of `generateSrt`, acting on the
accumulation state (subtitle string built so far, number of cues emitted,
running time in milliseconds): append one cue, bump the index, advance the
time by the fixed `durationPerSentence = 3000`. -/
def srtStep (acc : String × Nat × Nat) (sentence : List Char) :
    String × Nat × Nat :=
  (acc.1 ++ srtCue (acc.2.1 + 1) acc.2.2 (acc.2.2 + 3000)
      (String.mk (jsTrim sentence)),
   acc.2.1 + 1, acc.2.2 + 3000)

/-- Accumulation of the `sentences.forEach` loop of `generateSrt`, starting
from the empty subtitle, index 0 and time 0. -/
def srtFold (l : List (List Char)) : String × Nat × Nat :=
  l.foldl srtStep ("", 0, 0)

/-- Embedding of `generateSrt(text)` (src/App.js lines 565-590): split the
text into sentence-like chunks, then accumulate one cue per chunk with a
running 1-based index and a running time. -/
def generateSrt (text : String) : String :=
  (srtFold (sentencesOf text)).1

example : base64ToArrayBuffer "SGVsbG8=" = some [72, 101, 108, 108, 111] := by decide
example : b64encode [72, 101, 108, 108, 111] = "SGVsbG8=" := by decide
example : base64ToArrayBuffer (b64encode [0, 255, 17]) = some [0, 255, 17] := by decide
example : base64ToArrayBuffer (b64encode [1]) = some [1] := by decide
example : base64ToArrayBuffer (b64encode [1, 2]) = some [1, 2] := by decide
example : base64ToArrayBuffer "====" = none := by decide
example : base64ToArrayBuffer "A" = none := by decide

example : (execute mock500 "u" "o" 5 1000).reqs.length = 5 := by rfl
example : (execute mock500 "u" "o" 5 1000).waits = [1000, 2000, 4000, 8000] := by rfl
example : (execute mock500 "u" "o" 5 1000).outcome
    = some (.error (.apiError "Internal Server Error")) := by rfl
example :
    execute (fun i _ _ => .error (.connError (toString i))) "u" "o" 3 50
    = ⟨[("u", "o"), ("u", "o"), ("u", "o")], [50, 100],
       some (.error (.connError "2"))⟩ := by rfl
example : execute mock429Then200 "u" "o" 5 1000
    = ⟨[("u", "o"), ("u", "o"), ("u", "o")], [1000, 2000],
       some (.ok ⟨200, "OK"⟩)⟩ := by rfl
example : execute mock500 "u" "o" 0 1000 = ⟨[], [], none⟩ := by rfl

example : matchChunks "ab.cd!?ef".data = [['a','b','.'], ['c','d','!','?'], ['e','f']] := by decide
example : matchChunks "...".data = [] := by decide
example : sentencesOf "..." = [['.','.','.']] := by decide
example : formatTime 3000 = "00:00:03,000" := by decide
example : formatTime 3661023 = "01:01:01,023" := by decide
example : generateSrt "Hi there. Ok!"
    = "1\n00:00:00,000 --> 00:00:03,000\nHi there.\n\n2\n00:00:03,000 --> 00:00:06,000\nOk!\n\n" := by decide

/-- Normal form of the WAV output: the 44 header bytes as an explicit cons
chain followed by the coerced sample bytes. -/
theorem pcmToWav_cons (b : List Nat) (r : Nat) :
    pcmToWav b r =
      82 :: 73 :: 70 :: 70 ::
      ((36 + b.length) % 4294967296 % 256) ::
      ((36 + b.length) % 4294967296 / 256 % 256) ::
      ((36 + b.length) % 4294967296 / 65536 % 256) ::
      ((36 + b.length) % 4294967296 / 16777216 % 256) ::
      87 :: 65 :: 86 :: 69 ::
      102 :: 109 :: 116 :: 32 ::
      16 :: 0 :: 0 :: 0 ::
      1 :: 0 :: 1 :: 0 ::
      (r % 4294967296 % 256) :: (r % 4294967296 / 256 % 256) ::
      (r % 4294967296 / 65536 % 256) :: (r % 4294967296 / 16777216 % 256) ::
      (r * 2 % 4294967296 % 256) :: (r * 2 % 4294967296 / 256 % 256) ::
      (r * 2 % 4294967296 / 65536 % 256) :: (r * 2 % 4294967296 / 16777216 % 256) ::
      2 :: 0 :: 16 :: 0 ::
      100 :: 97 :: 116 :: 97 ::
      (b.length % 4294967296 % 256) :: (b.length % 4294967296 / 256 % 256) ::
      (b.length % 4294967296 / 65536 % 256) :: (b.length % 4294967296 / 16777216 % 256) ::
      b.map (fun x => x % 256) := rfl

/-- Reconstruction of a value below `2 ^ 32` from its four little-endian
base-256 digits. -/
theorem digits32 (m : Nat) (h : m < 4294967296) :
    m % 256 + 256 * (m / 256 % 256) + 65536 * (m / 65536 % 256) +
      16777216 * (m / 16777216 % 256) = m := by
  omega

theorem pcmToWav_length (b : List Nat) (r : Nat) :
    (pcmToWav b r).length = 44 + b.length := by
  rw [pcmToWav_cons]
  simp [List.length_cons]
  omega

set_option maxHeartbeats 1000000 in
theorem pcmToWav_drop44 (b : List Nat) (r : Nat) :
    (pcmToWav b r).drop 44 = b.map (fun x => x % 256) := rfl

theorem map_mod_eq_self (b : List Nat) (hb : ∀ x ∈ b, x < 256) :
    b.map (fun x => x % 256) = b := by
  induction b with
  | nil => rfl
  | cons a l ih =>
    simp only [List.map_cons]
    rw [Nat.mod_eq_of_lt (hb a (by simp))]
    rw [ih (fun x hx => hb x (by simp [hx]))]

set_option maxHeartbeats 1000000 in
theorem readU32le_pcmToWav_4 (b : List Nat) (r : Nat) :
    readU32le (pcmToWav b r) 4 =
      (36 + b.length) % 4294967296 % 256 +
      256 * ((36 + b.length) % 4294967296 / 256 % 256) +
      65536 * ((36 + b.length) % 4294967296 / 65536 % 256) +
      16777216 * ((36 + b.length) % 4294967296 / 16777216 % 256) := rfl

set_option maxHeartbeats 1000000 in
theorem readU32le_pcmToWav_24 (b : List Nat) (r : Nat) :
    readU32le (pcmToWav b r) 24 =
      r % 4294967296 % 256 + 256 * (r % 4294967296 / 256 % 256) +
      65536 * (r % 4294967296 / 65536 % 256) +
      16777216 * (r % 4294967296 / 16777216 % 256) := rfl

set_option maxHeartbeats 1000000 in
theorem readU32le_pcmToWav_40 (b : List Nat) (r : Nat) :
    readU32le (pcmToWav b r) 40 =
      b.length % 4294967296 % 256 + 256 * (b.length % 4294967296 / 256 % 256) +
      65536 * (b.length % 4294967296 / 65536 % 256) +
      16777216 * (b.length % 4294967296 / 16777216 % 256) := rfl

theorem readU32le_pcmToWav_4_eq (b : List Nat) (r : Nat)
    (h : 36 + b.length < 4294967296) :
    readU32le (pcmToWav b r) 4 = 36 + b.length := by
  rw [readU32le_pcmToWav_4, Nat.mod_eq_of_lt h, digits32 _ h]

theorem readU32le_pcmToWav_24_eq (b : List Nat) (r : Nat)
    (h : r < 4294967296) :
    readU32le (pcmToWav b r) 24 = r := by
  rw [readU32le_pcmToWav_24, Nat.mod_eq_of_lt h, digits32 _ h]

theorem readU32le_pcmToWav_40_eq (b : List Nat) (r : Nat)
    (h : b.length < 4294967296) :
    readU32le (pcmToWav b r) 40 = b.length := by
  rw [readU32le_pcmToWav_40, Nat.mod_eq_of_lt h, digits32 _ h]

set_option maxHeartbeats 1000000 in
theorem pcmToWav_take4 (b : List Nat) (r : Nat) :
    (pcmToWav b r).take 4 = asciiBytes "RIFF" := rfl

set_option maxHeartbeats 1000000 in
theorem pcmToWav_drop8_take4 (b : List Nat) (r : Nat) :
    ((pcmToWav b r).drop 8).take 4 = asciiBytes "WAVE" := rfl

set_option maxHeartbeats 1000000 in
theorem pcmToWav_drop12_take4 (b : List Nat) (r : Nat) :
    ((pcmToWav b r).drop 12).take 4 = asciiBytes "fmt " := rfl

set_option maxHeartbeats 1000000 in
theorem pcmToWav_drop36_take4 (b : List Nat) (r : Nat) :
    ((pcmToWav b r).drop 36).take 4 = asciiBytes "data" := rfl

set_option maxHeartbeats 1000000 in
theorem readU32le_pcmToWav_16 (b : List Nat) (r : Nat) :
    readU32le (pcmToWav b r) 16 = 16 := by
  rw [pcmToWav_cons]
  rfl

set_option maxHeartbeats 1000000 in
theorem readU16le_pcmToWav_20 (b : List Nat) (r : Nat) :
    readU16le (pcmToWav b r) 20 = 1 := rfl

set_option maxHeartbeats 1000000 in
theorem readU16le_pcmToWav_22 (b : List Nat) (r : Nat) :
    readU16le (pcmToWav b r) 22 = 1 := rfl

set_option maxHeartbeats 1000000 in
theorem readU16le_pcmToWav_34 (b : List Nat) (r : Nat) :
    readU16le (pcmToWav b r) 34 = 16 := rfl

example : (pcmToWav [0, 1, 0, 2] 16000).length = 48 := by decide
example : readU32le (pcmToWav [0, 1, 0, 2] 16000) 4 = 40 := by decide
example : readU16le (pcmToWav [0, 1, 0, 2] 16000) 22 = 1 := by decide
example : readU32le (pcmToWav [0, 1, 0, 2] 16000) 24 = 16000 := by decide
example : parseWav (pcmToWav [7, 9] 16000) = some ([7, 9], 16000) := by decide
example : readU32le (pcmToWav [] 4294967296) 24 = 0 := by decide
example : (pcmToWav [0] 16000).length = 45 := by decide

/-- Claim C3: `encodeWav` applied to the 4-byte sample buffer
`[0x00, 0x01, 0x00, 0x02]` with sample rate 16000 returns a buffer of
total length exactly 48 bytes, in which bytes 4-7 read as a little-endian
32-bit integer equal 40, bytes 22-23 equal 1 (channel count), and bytes
24-27 equal 16000 (sample rate). -/
theorem c3_wav_example :
    (pcmToWav [0, 1, 0, 2] 16000).length = 48 ∧
    readU32le (pcmToWav [0, 1, 0, 2] 16000) 4 = 40 ∧
    readU16le (pcmToWav [0, 1, 0, 2] 16000) 22 = 1 ∧
    readU32le (pcmToWav [0, 1, 0, 2] 16000) 24 = 16000 := by
  decide

/-- Claim C10: with a retry budget of 0, `exponentialBackoffFetch` performs no
fetch attempt at all, awaits no backoff, and resolves with `undefined`
(outcome `none`) rather than returning a response or throwing. -/
theorem c10_zero_retries (t : Transport) (url opts : String) (delay : Nat) :
    execute t url opts 0 delay = ⟨[], [], none⟩ := rfl

/-- Claim C2 counterexample: the claim says `encodeWav` fails with
`MalformedAudioError` on an odd-length sample buffer, but `pcmToWav`
contains no length check at all: on the 1-byte buffer `[0]` it returns a
45-byte output buffer ending in that byte instead of failing. -/
theorem c2_odd_buffer_counterexample :
    (pcmToWav [0] 16000).length = 45 ∧
    (pcmToWav [0] 16000).drop 44 = [0] := by
  decide

/-- Claim C2 amended: `encodeWav` performs no parity validation of the sample
buffer; for every odd-length input it still produces an output buffer of
length `44 + inputLength`, declaring the odd byte length in the `data`
size field and copying the input bytes, rather than failing. -/
theorem c2_amended_odd_buffer_encoded (b : List Nat) (r : Nat)
    (hodd : b.length % 2 = 1) :
    (pcmToWav b r).length = 44 + b.length ∧
    readU32le (pcmToWav b r) 40 = b.length % 4294967296 ∧
    (pcmToWav b r).drop 44 = b.map (fun x => x % 256) := by
  refine ⟨pcmToWav_length b r, ?_, pcmToWav_drop44 b r⟩
  rw [readU32le_pcmToWav_40]
  exact digits32 _ (Nat.mod_lt _ (by norm_num))

/-- Claim C2 amended witness: the amended statement evaluated at the odd-length
buffer `[0]` and sample rate 16000. -/
theorem c2_amended_witness : (pcmToWav [0] 16000).length = 45 := by
  have h := c2_amended_odd_buffer_encoded [0] 16000 (by decide)
  exact h.1.trans (by decide)

/-- Claim C5 counterexample: the claim quantifies over every positive integer
sample rate, but `setUint32` coerces the rate modulo `2 ^ 32`: at sample
rate `2 ^ 32` (with the even-length buffer `[]`) the sample-rate field of
the output holds 0, not the given rate. -/
theorem c5_samplerate_overflow_counterexample :
    ([] : List Nat).length % 2 = 0 ∧ 0 < 4294967296 ∧
    readU32le (pcmToWav [] 4294967296) 24 = 0 := by
  decide

/-- Claim C5 amended: for every even-length byte buffer and positive sample rate
below `2 ^ 32` such that `36 + length` also fits in 32 bits (the ranges in
which the `setUint32` coercions are lossless), the output of `encodeWav`
has total length `44 + inputLength` and the exact header layout: ASCII
"RIFF" at offset 0, total-size-minus-8 at offset 4, ASCII "WAVE" at
offset 8, a "fmt " sub-chunk of declared length 16 describing PCM (format
tag 1), mono (1 channel), 16 bits per sample at the given sample rate,
then a "data" sub-chunk whose declared length equals the input byte
length, immediately followed by the untouched input bytes; multi-byte
fields are read little-endian. -/
theorem c5_amended_wav_layout (b : List Nat) (r : Nat)
    (heven : b.length % 2 = 0) (hr0 : 0 < r) (hr : r < 4294967296)
    (hlen : 36 + b.length < 4294967296) (hb : ∀ x ∈ b, x < 256) :
    (pcmToWav b r).length = 44 + b.length ∧
    (pcmToWav b r).take 4 = asciiBytes "RIFF" ∧
    readU32le (pcmToWav b r) 4 = (pcmToWav b r).length - 8 ∧
    ((pcmToWav b r).drop 8).take 4 = asciiBytes "WAVE" ∧
    ((pcmToWav b r).drop 12).take 4 = asciiBytes "fmt " ∧
    readU32le (pcmToWav b r) 16 = 16 ∧
    readU16le (pcmToWav b r) 20 = 1 ∧
    readU16le (pcmToWav b r) 22 = 1 ∧
    readU32le (pcmToWav b r) 24 = r ∧
    readU16le (pcmToWav b r) 34 = 16 ∧
    ((pcmToWav b r).drop 36).take 4 = asciiBytes "data" ∧
    readU32le (pcmToWav b r) 40 = b.length ∧
    (pcmToWav b r).drop 44 = b := by
  refine ⟨pcmToWav_length b r, pcmToWav_take4 b r, ?_,
    pcmToWav_drop8_take4 b r, pcmToWav_drop12_take4 b r,
    readU32le_pcmToWav_16 b r, readU16le_pcmToWav_20 b r,
    readU16le_pcmToWav_22 b r, readU32le_pcmToWav_24_eq b r hr,
    readU16le_pcmToWav_34 b r, pcmToWav_drop36_take4 b r,
    readU32le_pcmToWav_40_eq b r (by omega), ?_⟩
  · rw [pcmToWav_length, readU32le_pcmToWav_4_eq b r hlen]
    omega
  · rw [pcmToWav_drop44]
    exact map_mod_eq_self b hb

/-- Claim C5 amended witness: the amended layout statement evaluated on the
2-byte buffer `[7, 9]` at sample rate 16000. -/
theorem c5_amended_witness :
    readU32le (pcmToWav [7, 9] 16000) 24 = 16000 ∧
    (pcmToWav [7, 9] 16000).drop 44 = [7, 9] := by
  have h := c5_amended_wav_layout [7, 9] 16000 (by decide) (by decide)
    (by decide) (by decide) (by decide)
  exact ⟨h.2.2.2.2.2.2.2.2.1, h.2.2.2.2.2.2.2.2.2.2.2.2⟩

/-- Claim C7 counterexample: the round-trip claim quantifies over every positive
sample rate, but at rate `2 ^ 32` (with buffer `[]`) the parser recovers
rate 0, not the original rate, because `setUint32` truncated it. -/
theorem c7_roundtrip_counterexample :
    parseWav (pcmToWav [] 4294967296) = some ([], 0) ∧
    parseWav (pcmToWav [] 4294967296) ≠ some ([], 4294967296) := by
  decide

/-- Claim C7 amended: for every even-length byte buffer and positive sample rate
below `2 ^ 32` such that `36 + length` also fits in 32 bits, parsing the
output of `encodeWav` with a standard WAV parser recovers exactly the
original byte buffer and the sample rate. -/
theorem c7_amended_roundtrip (b : List Nat) (r : Nat)
    (heven : b.length % 2 = 0) (hr0 : 0 < r) (hr : r < 4294967296)
    (hlen : 36 + b.length < 4294967296) (hb : ∀ x ∈ b, x < 256) :
    parseWav (pcmToWav b r) = some (b, r) := by
  have hlen44 := pcmToWav_length b r
  have h40 := readU32le_pcmToWav_40_eq b r (by omega)
  have h24 := readU32le_pcmToWav_24_eq b r hr
  have h4 := readU32le_pcmToWav_4_eq b r hlen
  simp only [parseWav]
  rw [if_pos ⟨pcmToWav_take4 b r, by rw [h4, hlen44]; omega, pcmToWav_drop8_take4 b r,
    pcmToWav_drop12_take4 b r, readU32le_pcmToWav_16 b r,
    readU16le_pcmToWav_20 b r, readU16le_pcmToWav_22 b r,
    readU16le_pcmToWav_34 b r, pcmToWav_drop36_take4 b r,
    by rw [h40, hlen44]⟩]
  rw [pcmToWav_drop44, map_mod_eq_self b hb, h24]

/-- Claim C7 amended witness: the round trip evaluated on the 2-byte buffer
`[7, 9]` at sample rate 16000. -/
theorem c7_amended_witness :
    parseWav (pcmToWav [7, 9] 16000) = some ([7, 9], 16000) :=
  c7_amended_roundtrip [7, 9] 16000 (by decide) (by decide) (by decide)
    (by decide) (by decide)

/-- Unfolding of one loop iteration on a 429 response with attempts
remaining: wait `delay * 2 ^ i` and continue with the next attempt. -/
theorem execLoop_retry429 (t : Transport) (url opts : String)
    (delay i rem : Nat) (resp : Response)
    (h : t i url opts = .ok resp) (hst : resp.status = 429) (hrem : 0 < rem) :
    execLoop t url opts delay i (rem + 1)
    = ⟨(url, opts) :: (execLoop t url opts delay (i + 1) rem).reqs,
       delay * 2 ^ i :: (execLoop t url opts delay (i + 1) rem).waits,
       (execLoop t url opts delay (i + 1) rem).outcome⟩ := by
  simp [execLoop, h, hst, hrem]

/-- Unfolding of one loop iteration on an ok response: return it at
once. -/
theorem execLoop_return_ok (t : Transport) (url opts : String)
    (delay i rem : Nat) (resp : Response)
    (h : t i url opts = .ok resp) (hst : resp.status ≠ 429)
    (hok : resp.okStatus = true) :
    execLoop t url opts delay i (rem + 1)
    = ⟨[(url, opts)], [], some (.ok resp)⟩ := by
  simp [execLoop, h, hst, hok]

/-- Unfolding of one loop iteration on a non-ok non-429 response with
attempts remaining: the source's `API error` throw is caught and retried
after the backoff wait. -/
theorem execLoop_throw_retry (t : Transport) (url opts : String)
    (delay i rem : Nat) (resp : Response)
    (h : t i url opts = .ok resp) (hst : resp.status ≠ 429)
    (hok : resp.okStatus = false) (hrem : 0 < rem) :
    execLoop t url opts delay i (rem + 1)
    = ⟨(url, opts) :: (execLoop t url opts delay (i + 1) rem).reqs,
       delay * 2 ^ i :: (execLoop t url opts delay (i + 1) rem).waits,
       (execLoop t url opts delay (i + 1) rem).outcome⟩ := by
  simp [execLoop, h, hst, hok]
  omega

/-- Unfolding of the last allowed iteration on a non-ok response
(429 included): the `API error` throw is re-thrown by the catch block. -/
theorem execLoop_throw_last (t : Transport) (url opts : String)
    (delay i rem : Nat) (resp : Response)
    (h : t i url opts = .ok resp) (hok : resp.okStatus = false)
    (hrem : rem = 0) :
    execLoop t url opts delay i (rem + 1)
    = ⟨[(url, opts)], [], some (.error (.apiError resp.statusText))⟩ := by
  simp [execLoop, h, hok, hrem]

/-- Unfolding of one loop iteration on a transport error with attempts
remaining: wait and continue. -/
theorem execLoop_err_retry (t : Transport) (url opts : String)
    (delay i rem : Nat) (e : JsError)
    (h : t i url opts = .error e) (hrem : 0 < rem) :
    execLoop t url opts delay i (rem + 1)
    = ⟨(url, opts) :: (execLoop t url opts delay (i + 1) rem).reqs,
       delay * 2 ^ i :: (execLoop t url opts delay (i + 1) rem).waits,
       (execLoop t url opts delay (i + 1) rem).outcome⟩ := by
  simp [execLoop, h]
  omega

/-- Unfolding of the last allowed iteration on a transport error: the
error is re-thrown. -/
theorem execLoop_err_last (t : Transport) (url opts : String)
    (delay i rem : Nat) (e : JsError)
    (h : t i url opts = .error e) (hrem : rem = 0) :
    execLoop t url opts delay i (rem + 1)
    = ⟨[(url, opts)], [], some (.error e)⟩ := by
  simp [execLoop, h, hrem]

/-- Behaviour of the remaining loop against a transport that always
returns the same non-ok, non-429 status: every allowed attempt is made
with a backoff wait between consecutive attempts, and the final outcome is
the thrown `API error`. -/
theorem execLoop_const_nonok (s : Nat) (st url opts : String) (delay : Nat)
    (hst : s ≠ 429) (hnotok : s < 200 ∨ 300 ≤ s) :
    ∀ rem i, execLoop (fun _ _ _ => .ok ⟨s, st⟩) url opts delay i (rem + 1)
      = ⟨List.replicate (rem + 1) (url, opts),
         (List.range rem).map (fun k => delay * 2 ^ (i + k)),
         some (.error (.apiError st))⟩ := by
  have hok : Response.okStatus ⟨s, st⟩ = false := by
    simp [Response.okStatus]
    omega
  intro rem
  induction rem with
  | zero =>
    intro i
    exact execLoop_throw_last _ url opts delay i 0 _ rfl hok rfl
  | succ n ih =>
    intro i
    rw [execLoop_throw_retry _ url opts delay i (n + 1) _ rfl hst hok
      (by omega)]
    rw [ih (i + 1)]
    have hexp : ∀ k : Nat, i + 1 + k = i + (k + 1) := by omega
    simp [List.range_succ_eq_map, List.map_map, Function.comp, hexp,
      List.replicate_succ]

/-- Claim C1 counterexample: the claim says a non-success status other
than 429 fails immediately with no retry and no backoff wait, but with a
transport that always returns HTTP 500 and the default budget of 5,
`exponentialBackoffFetch` makes 5 attempts with 4 backoff waits before
failing — the error thrown for a non-ok response is caught by the loop's
own `catch` block and retried like a transport failure. -/
theorem c1_non429_retried_counterexample :
    (execute mock500 "u" "o" 5 1000).reqs.length = 5 ∧
    (execute mock500 "u" "o" 5 1000).waits = [1000, 2000, 4000, 8000] ∧
    (execute mock500 "u" "o" 5 1000).outcome
      = some (.error (.apiError "Internal Server Error")) := by
  exact ⟨rfl, rfl, rfl⟩

/-- Claim C1 amended: a non-success status other than 429 makes the
attempt throw an error carrying the response's status text, but that
error is caught by the retry loop and retried with exponential backoff
like a transport failure: against a transport that always returns such a
status, `execute` makes all `retries` attempts, waiting
`delay * 2 ^ k` after attempt `k` for every non-final attempt, and
finally fails with the error from the last attempt. -/
theorem c1_amended_nonok_retried (s : Nat) (st url opts : String)
    (retries delay : Nat) (hst : s ≠ 429) (hnotok : s < 200 ∨ 300 ≤ s)
    (hr : 1 ≤ retries) :
    execute (fun _ _ _ => .ok ⟨s, st⟩) url opts retries delay
    = ⟨List.replicate retries (url, opts),
       (List.range (retries - 1)).map (fun k => delay * 2 ^ k),
       some (.error (.apiError st))⟩ := by
  obtain ⟨m, rfl⟩ : ∃ m, retries = m + 1 := ⟨retries - 1, by omega⟩
  have h := execLoop_const_nonok s st url opts delay hst hnotok m 0
  simp only [execute]
  rw [h]
  simp

/-- Claim C1 amended witness: the amended statement evaluated against a
constant HTTP 500 transport with budget 3 and base delay 100. -/
theorem c1_amended_witness :
    execute (fun _ _ _ => .ok ⟨500, "Internal Server Error"⟩) "u" "o" 3 100
    = ⟨List.replicate 3 ("u", "o"),
       (List.range 2).map (fun k => 100 * 2 ^ k),
       some (.error (.apiError "Internal Server Error"))⟩ :=
  c1_amended_nonok_retried 500 "Internal Server Error" "u" "o" 3 100
    (by decide) (by decide) (by decide)

/-- Claim C4: when the transport throws a connection error on every
attempt and the retry budget is 3, `exponentialBackoffFetch` makes exactly
3 attempts (with backoff waits `delay` and `2 * delay` between them) and
then fails terminally, propagating the most recent underlying failure —
the error of attempt 2 (the spec's `RetriesExhaustedError` surfaced with
the last underlying cause). -/
theorem c4_retries_exhausted (e : Nat → JsError) (url opts : String)
    (delay : Nat) :
    execute (fun i _ _ => .error (e i)) url opts 3 delay
    = ⟨[(url, opts), (url, opts), (url, opts)],
       [delay * 2 ^ 0, delay * 2 ^ 1], some (.error (e 2))⟩ := rfl

/-- Claim C6: when the transport returns HTTP 429 on the first two
attempts and HTTP 200 on the third, `exponentialBackoffFetch` (with any
budget of at least 3) returns the 200 response after exactly two backoff
waits of `delay` and `2 * delay`, repeating the identical
`(url, options)` request on each of the three attempts. -/
theorem c6_backoff_429 (url opts : String) (retries delay : Nat)
    (h : 3 ≤ retries) :
    execute mock429Then200 url opts retries delay
    = ⟨[(url, opts), (url, opts), (url, opts)], [delay, delay * 2],
       some (.ok ⟨200, "OK"⟩)⟩ := by
  obtain ⟨k, rfl⟩ : ∃ k, retries = k + 3 := ⟨retries - 3, by omega⟩
  show execLoop mock429Then200 url opts delay 0 ((k + 2) + 1) = _
  rw [execLoop_retry429 _ url opts delay 0 (k + 2) ⟨429, "Too Many Requests"⟩
    rfl rfl (by omega)]
  have s2 : execLoop mock429Then200 url opts delay (0 + 1) (k + 2)
      = ⟨(url, opts) ::
           (execLoop mock429Then200 url opts delay (0 + 1 + 1) (k + 1)).reqs,
         delay * 2 ^ (0 + 1) ::
           (execLoop mock429Then200 url opts delay (0 + 1 + 1) (k + 1)).waits,
         (execLoop mock429Then200 url opts delay (0 + 1 + 1) (k + 1)).outcome⟩ :=
    execLoop_retry429 _ url opts delay (0 + 1) (k + 1)
      ⟨429, "Too Many Requests"⟩ rfl rfl (by omega)
  rw [s2]
  have s3 : execLoop mock429Then200 url opts delay (0 + 1 + 1) (k + 1)
      = ⟨[(url, opts)], [], some (.ok ⟨200, "OK"⟩)⟩ :=
    execLoop_return_ok _ url opts delay (0 + 1 + 1) k ⟨200, "OK"⟩ rfl
      (by decide) rfl
  rw [s3]
  norm_num

/-- Claim C6 witness: the statement evaluated at the default budget 5 and
base delay 1000. -/
theorem c6_backoff_429_witness :
    execute mock429Then200 "u" "o" 5 1000
    = ⟨[("u", "o"), ("u", "o"), ("u", "o")], [1000, 2000],
       some (.ok ⟨200, "OK"⟩)⟩ :=
  c6_backoff_429 "u" "o" 5 1000 (by decide)

theorem b64Index_b64Char_ball : ∀ n, n < 64 → b64Index (b64Char n) = some n := by
  decide

theorem b64Char_not_ws_ball : ∀ n, n < 64 → b64Ws (b64Char n) = false := by
  decide

theorem b64Char_ne_pad_ball : ∀ n, n < 64 → b64Char n ≠ '=' := by
  decide

theorem b64EncSextets_lt (bs : List Nat) (hb : ∀ x ∈ bs, x < 256) :
    ∀ n ∈ b64EncSextets bs, n < 64 := by
  induction bs using b64EncSextets.induct with
  | case1 => simp [b64EncSextets]
  | case2 b1 b2 b3 rest ih =>
    have h1 : b1 < 256 := hb _ (by simp)
    have h2 : b2 < 256 := hb _ (by simp)
    have h3 : b3 < 256 := hb _ (by simp)
    have hrest := ih (fun x hx => hb x (by simp [hx]))
    intro n hn
    rw [b64EncSextets] at hn
    simp only [List.mem_cons] at hn
    rcases hn with h | h | h | h | h
    all_goals first
      | (subst h; omega)
      | exact hrest n h
  | case3 b1 =>
    have h1 : b1 < 256 := hb _ (by simp)
    intro n hn
    simp [b64EncSextets] at hn
    rcases hn with h | h
    all_goals subst h; omega
  | case4 b1 b2 =>
    have h1 : b1 < 256 := hb _ (by simp)
    have h2 : b2 < 256 := hb _ (by simp)
    intro n hn
    simp [b64EncSextets] at hn
    rcases hn with h | h | h
    all_goals subst h; omega

theorem b64EncSextets_length (bs : List Nat) :
    (b64EncSextets bs).length
      = bs.length / 3 * 4 + bs.length % 3 +
        (if bs.length % 3 = 0 then 0 else 1) := by
  induction bs using b64EncSextets.induct with
  | case1 => rfl
  | case2 b1 b2 b3 rest ih =>
    rw [b64EncSextets]
    simp only [List.length_cons]
    rw [ih]
    by_cases h0 : rest.length % 3 = 0
    · have h0' : (rest.length + 1 + 1 + 1) % 3 = 0 := by omega
      simp only [h0, h0', if_pos rfl]
      omega
    · have h0' : ¬(rest.length + 1 + 1 + 1) % 3 = 0 := by omega
      rw [if_neg h0, if_neg h0']
      omega
  | case3 b1 => simp [b64EncSextets]
  | case4 b1 b2 => simp [b64EncSextets]

theorem stripPad_no_pad (l : List Char) (h : ∀ c ∈ l, c ≠ '=') :
    stripPad l = l := by
  unfold stripPad
  split
  case isFalse => rfl
  case isTrue =>
    split
    case isFalse => rfl
    case isTrue hl =>
      exact absurd rfl (h '=' (List.mem_of_mem_getLast? hl))

theorem getLast?_ne_pad (m : List Char) (h : ∀ c ∈ m, c ≠ '=') :
    ¬ m.getLast? = some '=' := by
  intro hl
  exact absurd rfl (h '=' (List.mem_of_mem_getLast? hl))

theorem stripPad_one (m : List Char) (h4 : (m ++ ['=']).length % 4 = 0)
    (h : ∀ c ∈ m, c ≠ '=') :
    stripPad (m ++ ['=']) = m := by
  unfold stripPad
  rw [if_pos h4, if_pos (List.getLast?_concat m), List.dropLast_concat,
    if_neg (getLast?_ne_pad m h)]

theorem stripPad_two (m : List Char) (h4 : (m ++ ['=', '=']).length % 4 = 0) :
    stripPad (m ++ ['=', '=']) = m := by
  have hsplit : m ++ ['=', '='] = (m ++ ['=']) ++ ['='] := by
    simp
  unfold stripPad
  rw [if_pos h4, hsplit, if_pos (List.getLast?_concat _),
    List.dropLast_concat, if_pos (List.getLast?_concat m),
    List.dropLast_concat]

theorem b64DecodeSextets_b64EncSextets (bs : List Nat)
    (hb : ∀ x ∈ bs, x < 256) :
    b64DecodeSextets (b64EncSextets bs) = some bs := by
  induction bs using b64EncSextets.induct with
  | case1 => rfl
  | case2 b1 b2 b3 rest ih =>
    have h1 : b1 < 256 := hb _ (by simp)
    have h2 : b2 < 256 := hb _ (by simp)
    have h3 : b3 < 256 := hb _ (by simp)
    rw [b64EncSextets]
    rw [b64DecodeSextets]
    rw [ih (fun x hx => hb x (by simp [hx]))]
    simp only [Option.map_some']
    have e1 : b1 / 4 * 4 + ((b1 % 4) * 16 + b2 / 16) / 16 = b1 := by omega
    have e2 : ((b1 % 4) * 16 + b2 / 16) % 16 * 16 +
        ((b2 % 16) * 4 + b3 / 64) / 4 = b2 := by omega
    have e3 : ((b2 % 16) * 4 + b3 / 64) % 4 * 64 + b3 % 64 = b3 := by omega
    rw [e1, e2, e3]
  | case3 b1 =>
    have h1 : b1 < 256 := hb _ (by simp)
    rw [b64EncSextets, b64DecodeSextets]
    have e1 : b1 / 4 * 4 + (b1 % 4) * 16 / 16 = b1 := by omega
    rw [e1]
  | case4 b1 b2 =>
    have h1 : b1 < 256 := hb _ (by simp)
    have h2 : b2 < 256 := hb _ (by simp)
    rw [b64EncSextets, b64DecodeSextets]
    have e1 : b1 / 4 * 4 + ((b1 % 4) * 16 + b2 / 16) / 16 = b1 := by omega
    have e2 : ((b1 % 4) * 16 + b2 / 16) % 16 * 16 + (b2 % 16) * 4 / 4 = b2 := by
      omega
    rw [e1, e2]

theorem mapM_b64Index_map (sx : List Nat) (h : ∀ n ∈ sx, n < 64) :
    (sx.map b64Char).mapM b64Index = some sx := by
  induction sx with
  | nil => rfl
  | cons a l ih =>
    simp only [List.map_cons, List.mapM_cons]
    rw [b64Index_b64Char_ball a (h a (by simp))]
    rw [ih (fun n hn => h n (by simp [hn]))]
    rfl

theorem b64DecodeSextets_length (sx : List Nat) (out : List Nat)
    (h : b64DecodeSextets sx = some out) : out.length = sx.length * 3 / 4 := by
  induction sx using b64DecodeSextets.induct generalizing out with
  | case1 =>
    simp only [b64DecodeSextets, Option.some_inj] at h
    subst h
    rfl
  | case2 a b c d rest ih =>
    rw [b64DecodeSextets] at h
    rcases hr : b64DecodeSextets rest with _ | r
    · rw [hr] at h
      simp at h
    · rw [hr] at h
      simp only [Option.map_some', Option.some_inj] at h
      subst h
      simp only [List.length_cons]
      rw [ih r hr]
      omega
  | case3 a b =>
    simp only [b64DecodeSextets, Option.some_inj] at h
    subst h
    simp
  | case4 a b c =>
    simp only [b64DecodeSextets, Option.some_inj] at h
    subst h
    simp
  | case5 a =>
    simp [b64DecodeSextets] at h

theorem data_mk (l : List Char) : (String.mk l).data = l := rfl

theorem mapM_b64Index_length (l : List Char) (sx : List Nat)
    (h : l.mapM b64Index = some sx) : sx.length = l.length := by
  induction l generalizing sx with
  | nil =>
    simp only [List.mapM_nil, Option.pure_def, Option.some_inj] at h
    subst h
    rfl
  | cons a l ih =>
    simp only [List.mapM_cons] at h
    rcases ha : b64Index a with _ | v
    · rw [ha] at h
      simp at h
    · rw [ha] at h
      rcases hrest : l.mapM b64Index with _ | r
      · rw [hrest] at h
        simp at h
      · rw [hrest] at h
        simp at h
        subst h
        simp [ih r hrest]

theorem base64_roundtrip (bs : List Nat) (hb : ∀ x ∈ bs, x < 256) :
    base64ToArrayBuffer (b64encode bs) = some bs := by
  have hlt := b64EncSextets_lt bs hb
  have hne : ∀ c ∈ (b64EncSextets bs).map b64Char, c ≠ '=' := by
    intro c hc
    obtain ⟨n, hn, rfl⟩ := List.mem_map.mp hc
    exact b64Char_ne_pad_ball n (hlt n hn)
  have hmem : ∀ c ∈ (b64EncSextets bs).map b64Char ++ b64Pad bs.length,
      (!b64Ws c) = true := by
    intro c hc
    rcases List.mem_append.mp hc with h | h
    · obtain ⟨n, hn, rfl⟩ := List.mem_map.mp h
      simp [b64Char_not_ws_ball n (hlt n hn)]
    · have hc' : c = '=' := by
        unfold b64Pad at h
        split at h
        · simp at h
          exact h
        · split at h
          · simp at h
            exact h
          · simp at h
      subst hc'
      decide
  have hfil : ((b64EncSextets bs).map b64Char ++ b64Pad bs.length).filter
      (fun c => !b64Ws c) = (b64EncSextets bs).map b64Char ++ b64Pad bs.length :=
    List.filter_eq_self.mpr hmem
  have hL := b64EncSextets_length bs
  have hstrip : stripPad ((b64EncSextets bs).map b64Char ++ b64Pad bs.length)
      = (b64EncSextets bs).map b64Char := by
    by_cases h0 : bs.length % 3 = 0
    · have hp : b64Pad bs.length = [] := by
        simp [b64Pad, h0]
      rw [hp, List.append_nil]
      exact stripPad_no_pad _ hne
    · by_cases h1 : bs.length % 3 = 1
      · have hp : b64Pad bs.length = ['=', '='] := by
          simp [b64Pad, h1]
        rw [hp]
        apply stripPad_two
        rw [if_neg h0] at hL
        simp only [List.length_append, List.length_map, List.length_cons,
          List.length_nil, hL]
        omega
      · have h2 : bs.length % 3 = 2 := by omega
        have hp : b64Pad bs.length = ['='] := by
          simp [b64Pad, h2]
        rw [hp]
        apply stripPad_one
        · rw [if_neg h0] at hL
          simp only [List.length_append, List.length_map, List.length_cons,
            List.length_nil, hL]
          omega
        · exact hne
  have hm4 : ((b64EncSextets bs).map b64Char).length % 4 ≠ 1 := by
    rw [List.length_map]
    by_cases h0 : bs.length % 3 = 0
    · rw [if_pos h0] at hL
      omega
    · rw [if_neg h0] at hL
      omega
  show atob (String.mk ((b64EncSextets bs).map b64Char ++ b64Pad bs.length))
      = some bs
  unfold atob
  rw [data_mk, hfil, hstrip, if_neg hm4,
    mapM_b64Index_map (b64EncSextets bs) hlt, Option.some_bind]
  exact b64DecodeSextets_b64EncSextets bs hb

theorem base64_decode_length (s : String) (out : List Nat)
    (h : base64ToArrayBuffer s = some out) :
    out.length
      = (stripPad (s.data.filter (fun c => !b64Ws c))).length * 3 / 4 := by
  unfold base64ToArrayBuffer atob at h
  by_cases h1 : (stripPad (s.data.filter (fun c => !b64Ws c))).length % 4 = 1
  · rw [if_pos h1] at h
    simp at h
  · rw [if_neg h1] at h
    rcases hm : (stripPad (s.data.filter (fun c => !b64Ws c))).mapM b64Index
        with _ | sx
    · rw [hm] at h
      simp at h
    · rw [hm] at h
      simp only [Option.some_bind] at h
      rw [b64DecodeSextets_length sx out h, mapM_b64Index_length _ sx hm]

/-- Claim C8: for every valid base64 string the decoder is deterministic (it
is a function of its input), recovers exactly the byte sequence that was
encoded with no additional transformation, and returns
`floor(unpaddedLength * 3 / 4)` bytes; in particular decoding `"SGVsbG8="`
yields the bytes `[72, 101, 108, 108, 111]`. -/
theorem c8_base64_decode :
    base64ToArrayBuffer "SGVsbG8=" = some [72, 101, 108, 108, 111] ∧
    (∀ bs : List Nat, (∀ x ∈ bs, x < 256) →
      base64ToArrayBuffer (b64encode bs) = some bs) ∧
    (∀ (s : String) (out : List Nat), base64ToArrayBuffer s = some out →
      out.length
        = (stripPad (s.data.filter (fun c => !b64Ws c))).length * 3 / 4) :=
  ⟨by decide, base64_roundtrip, base64_decode_length⟩

/-- Claim C8 witness: the round-trip and length statements evaluated on the
bytes of "Hello". -/
theorem c8_base64_decode_witness :
    base64ToArrayBuffer (b64encode [72, 101, 108, 108, 111])
      = some [72, 101, 108, 108, 111] :=
  c8_base64_decode.2.1 [72, 101, 108, 108, 111] (by decide)

theorem length_padZeros (n : Nat) (s : String) :
    (padZeros n s).length = max n s.length := by
  have h1 : (String.mk (List.replicate (n - s.length) '0')).length
      = n - s.length := by
    show (List.replicate (n - s.length) '0').length = n - s.length
    simp
  simp [padZeros, String.length_append, h1]
  omega

set_option maxRecDepth 4000 in
theorem toString_length_le2 : ∀ h : Nat, h < 100 → (toString h).length ≤ 2 := by
  decide

set_option maxRecDepth 40000 in
theorem toString_length_le3 : ∀ h : Nat, h < 1000 → (toString h).length ≤ 3 := by
  decide

theorem formatTime_length (ms : Nat) (h : ms < 360000000) :
    (formatTime ms).length = 12 := by
  have h1 : ms / 3600000 < 100 := by omega
  have h2 : ms % 3600000 / 60000 < 100 := by omega
  have h3 : ms % 60000 / 1000 < 100 := by omega
  have h4 : ms % 1000 < 1000 := by omega
  have l1 := toString_length_le2 _ h1
  have l2 := toString_length_le2 _ h2
  have l3 := toString_length_le2 _ h3
  have l4 := toString_length_le3 _ h4
  have hc1 : (":" : String).length = 1 := rfl
  have hc2 : ("," : String).length = 1 := rfl
  simp [formatTime, String.length_append, length_padZeros, hc1, hc2]
  omega

theorem join_cons (a : String) (l : List String) :
    String.join (a :: l) = a ++ String.join l := by
  rw [String.join_eq, String.join_eq]
  rfl

theorem srtFold_closed (l : List (List Char)) :
    ∀ acc : String × Nat × Nat,
    (l.foldl srtStep acc).1
      = acc.1 ++ String.join ((List.range l.length).map (fun k =>
          srtCue (acc.2.1 + k + 1) (acc.2.2 + 3000 * k)
            (acc.2.2 + 3000 * k + 3000)
            (String.mk (jsTrim (l.getD k []))))) := by
  induction l with
  | nil =>
    intro acc
    simp [String.join]
  | cons s l ih =>
    intro acc
    rw [List.foldl_cons, ih (srtStep acc s)]
    simp only [srtStep, List.length_cons]
    have hmap : (List.range (l.length + 1)).map (fun k =>
        srtCue (acc.2.1 + k + 1) (acc.2.2 + 3000 * k)
          (acc.2.2 + 3000 * k + 3000)
          (String.mk (jsTrim ((s :: l).getD k []))))
      = srtCue (acc.2.1 + 1) acc.2.2 (acc.2.2 + 3000)
          (String.mk (jsTrim s)) ::
        (List.range l.length).map (fun k =>
          srtCue (acc.2.1 + 1 + k + 1) (acc.2.2 + 3000 + 3000 * k)
            (acc.2.2 + 3000 + 3000 * k + 3000)
            (String.mk (jsTrim (l.getD k [])))) := by
      rw [List.range_succ_eq_map, List.map_cons, List.map_map,
        List.cons.injEq]
      refine ⟨by simp, ?_⟩
      apply List.map_congr_left
      intro k _
      simp only [Function.comp, Nat.succ_eq_add_one, List.getD_cons_succ]
      have e1 : acc.2.1 + (k + 1) + 1 = acc.2.1 + 1 + k + 1 := by omega
      have e2 : acc.2.2 + 3000 * (k + 1) = acc.2.2 + 3000 + 3000 * k := by
        ring
      rw [e1, e2]
    rw [hmap, join_cons, String.append_assoc]

theorem srtFold_first (l : List (List Char)) :
    (srtFold l).1
      = String.join ((List.range l.length).map (fun k =>
          srtCue (k + 1) (3000 * k) (3000 * k + 3000)
            (String.mk (jsTrim (l.getD k []))))) := by
  have h := srtFold_closed l ("", 0, 0)
  simp only [srtFold]
  rw [h]
  simp [String.join]

/-- Claim C9: for every input text, the generated subtitle file is exactly
the concatenation, over the sentence-like chunks the source text is split
into, of cues in the plain-text numbered format
`index\nHH:MM:SS,mmm --> HH:MM:SS,mmm\ntext\n\n`, with cue indices
starting at 1 and increasing consecutively, every chunk assigned the same
fixed 3000 ms duration, and consecutive cues' time ranges abutting (cue
`k` runs from `3000 * k` to `3000 * k + 3000`); each timestamp is the
12-character zero-padded `HH:MM:SS,mmm` rendering (exactly 12 characters
whenever the time is below 100 hours). -/
theorem c9_srt_format :
    (∀ text : String, generateSrt text
      = String.join ((List.range (sentencesOf text).length).map (fun k =>
          toString (k + 1) ++ "\n" ++ formatTime (3000 * k) ++ " --> " ++
          formatTime (3000 * k + 3000) ++ "\n" ++
          String.mk (jsTrim ((sentencesOf text).getD k [])) ++ "\n\n"))) ∧
    (∀ ms : Nat, ms < 360000000 → (formatTime ms).length = 12) := by
  constructor
  · intro text
    show (srtFold (sentencesOf text)).1 = _
    rw [srtFold_first]
    rfl
  · exact fun ms h => formatTime_length ms h

/-- Claim C9 witness: the format statement evaluated on a two-sentence
text, and the timestamp length statement at 3000 ms. -/
theorem c9_srt_format_witness :
    generateSrt "Hi there. Ok!"
      = "1\n00:00:00,000 --> 00:00:03,000\nHi there.\n\n2\n00:00:03,000 --> 00:00:06,000\nOk!\n\n" ∧
    (formatTime 3000).length = 12 :=
  ⟨(c9_srt_format.1 "Hi there. Ok!").trans (by decide),
   c9_srt_format.2 3000 (by decide)⟩
